import Mathlib

/-!
Verification development for the RainForest proof-of-work hash
(sources: rainforest.h and rf_test.c). The mixing engine rf_core.c is
included by the harness but is not among the visible sources; every
component it implements is modelled from the specification, as noted in
the doc comment of each such definition. The development is parametric
in the functions the specification leaves free in the Round Mixer (the
nonlinear accumulator combination, the write-back mixing function and
the next-index derivation), so every theorem below holds for any
implementation of those functions.
-/

/-- Number of 64-bit entries of the rambox scratch table, 2048 entries
for 16 kB (rainforest.h, RAMBOX_SIZE). -/
def RAMBOX_SIZE : Nat := 2048

/-- Number of serially dependent table passes the Round Mixer performs
per 32-bit unit (rainforest.h, RAMBOX_LOOPS). -/
def RAMBOX_LOOPS : Nat := 4

/-- One bit-step of the reflected CRC-32 computation with polynomial
0xEDB88320, acting on a 32-bit value represented as a natural number. -/
def crc32_bit (x : Nat) : Nat :=
  if x % 2 = 1 then x / 2 ^^^ 0xEDB88320 else x / 2

/-- Modelled from the spec: the hardware-style CRC32 checksum diffusion
of the Round Mixer (implemented in the absent rf_core.c) — folds one
32-bit unit into the running checksum by 32 bit-steps of the reflected
CRC-32. -/
def rf_crc32 (c unit : Nat) : Nat :=
  crc32_bit^[32] ((c ^^^ unit) % 2 ^ 32)

/-- The functions the specification leaves free in the Round Mixer of
the absent rf_core.c: the nonlinear combination of a table word into the
256-bit accumulator, the write-back mixing function named f by the
spec, and the derivation of the next table index from the updated
accumulator and checksum. -/
structure RoundFns where
  combine : Nat → Nat → Nat
  writeback : Nat → Nat → Nat → Nat
  nextIdx : Nat → Nat → Nat

/-- State threaded through the Round Mixer inner loop: the 256-bit
accumulator A, the 32-bit checksum c, the scratch table T and the
current table index idx. -/
structure MixState where
  A : Nat
  c : Nat
  T : List Nat
  idx : Nat

/-- Modelled from the spec: one inner iteration of the Round Mixer of
the absent rf_core.c — read e from T at idx, nonlinearly combine e into
the accumulator, write back f applied to e, the updated accumulator and
the checksum, and derive the next index from the just-updated
accumulator and checksum, reduced modulo the table size. -/
def mixIter (F : RoundFns) (s : MixState) : MixState :=
  let e := s.T.getD s.idx 0
  let a := F.combine e s.A % 2 ^ 256
  ⟨a, s.c, s.T.set s.idx (F.writeback e a s.c % 2 ^ 64),
   F.nextIdx a s.c % RAMBOX_SIZE⟩

/-- Modelled from the spec: the Round Mixer inner loop — n serially
dependent iterations of mixIter, each consuming the state produced by
the previous one. -/
def mixLoop (F : RoundFns) : Nat → MixState → MixState
  | 0, s => s
  | n + 1, s => mixLoop F n (mixIter F s)

/-- The table indices read and written by mixLoop, in access order (each
iteration reads and writes the same index). -/
def mixTrace (F : RoundFns) : Nat → MixState → List Nat
  | 0, _ => []
  | n + 1, s => s.idx :: mixTrace F n (mixIter F s)

/-- Modelled from the spec: the Round Mixer of the absent rf_core.c —
fold the incoming 32-bit unit into the checksum with CRC32, derive the
first table index as the new checksum modulo 2048, then run
RAMBOX_LOOPS serially dependent read-modify-write iterations. -/
def roundMixer (F : RoundFns) (A c : Nat) (T : List Nat) (unit : Nat) : MixState :=
  mixLoop F RAMBOX_LOOPS ⟨A, rf_crc32 c unit, T, rf_crc32 c unit % RAMBOX_SIZE⟩

/-- The table indices accessed by one Round Mixer invocation. -/
def roundMixerTrace (F : RoundFns) (A c : Nat) (T : List Nat) (unit : Nat) : List Nat :=
  mixTrace F RAMBOX_LOOPS ⟨A, rf_crc32 c unit, T, rf_crc32 c unit % RAMBOX_SIZE⟩

/-- The hashing context of rainforest.h (struct rf_ctx): the rambox
scratch table, the 256-bit accumulator (field hash, modelled as a
natural number below 2 to the 256), the running CRC, the little-endian
pending word and the total message length; the pending byte count of
the spec is the length modulo 4. -/
structure rf256_ctx_t where
  rambox : List Nat
  hash : Nat
  crc : Nat
  word : Nat
  len : Nat

/-- Modelled from the spec: rf256_init of the absent rf_core.c — resets
the accumulator, checksum, pending word and length counter to zero and
does not touch the table. -/
def rf256_init (ctx : rf256_ctx_t) : rf256_ctx_t :=
  ⟨ctx.rambox, 0, 0, 0, 0⟩

/-- Modelled from the spec: one byte of rf256_update of the absent
rf_core.c — append the byte at its little-endian position of the
pending word; once four bytes are pending, feed the packed 32-bit unit
to the Round Mixer and clear the buffer; always count the byte. -/
def rf256_update_byte (F : RoundFns) (ctx : rf256_ctx_t) (b : Nat) : rf256_ctx_t :=
  let w := ctx.word + b % 256 * 2 ^ (8 * (ctx.len % 4))
  if ctx.len % 4 = 3 then
    let s := roundMixer F ctx.hash ctx.crc ctx.rambox w
    ⟨s.T, s.A, s.c, 0, ctx.len + 1⟩
  else
    ⟨ctx.rambox, ctx.hash, ctx.crc, w, ctx.len + 1⟩

/-- Modelled from the spec: rf256_update of the absent rf_core.c —
stream the supplied bytes into the context, arbitrarily chunked by the
caller. -/
def rf256_update (F : RoundFns) (ctx : rf256_ctx_t) (msg : List Nat) : rf256_ctx_t :=
  msg.foldl (rf256_update_byte F) ctx

/-- Modelled from the spec: the finalization core shared by rf256_final
and the one-shot entry points of the absent rf_core.c — flush the zero
to three pending bytes as a last partial unit, then perform one further
no-new-data Round Mixer pass that folds the total length (hence the
true byte count, which also determines the padding) into the state; the
accumulator is the digest, returned together with the mutated table. -/
def finishT (F : RoundFns) (A c : Nat) (T : List Nat) (word len : Nat) : Nat × List Nat :=
  let s1 := if len % 4 = 0 then (⟨A, c, T, 0⟩ : MixState) else roundMixer F A c T word
  let s2 := roundMixer F s1.A s1.c s1.T (len % 2 ^ 32)
  (s2.A, s2.T)

/-- Modelled from the spec: rf256_final of the absent rf_core.c —
finalize the context and return the 256-bit digest. -/
def rf256_final (F : RoundFns) (ctx : rf256_ctx_t) : Nat :=
  (finishT F ctx.hash ctx.crc ctx.rambox ctx.word ctx.len).1

/-- Little-endian packing of four bytes into one 32-bit unit. -/
def packLE4 (b0 b1 b2 b3 : Nat) : Nat :=
  b0 % 256 + b1 % 256 * 2 ^ 8 + b2 % 256 * 2 ^ 16 + b3 % 256 * 2 ^ 24

/-- Little-endian packing of the zero to three leftover bytes of a
message into the pending word. -/
def packRem : List Nat → Nat
  | [] => 0
  | [b0] => b0 % 256
  | [b0, b1] => b0 % 256 + b1 % 256 * 2 ^ 8
  | [b0, b1, b2] => b0 % 256 + b1 % 256 * 2 ^ 8 + b2 % 256 * 2 ^ 16
  | _ => 0

/-- Modelled from the spec: the one-shot hashing loop of the absent
rf_core.c — consume the message four bytes at a time, feeding each
packed little-endian unit to the Round Mixer, returning the final
accumulator, checksum and table together with the leftover bytes. -/
def oneshotLoop (F : RoundFns) (A c : Nat) (T : List Nat) :
    List Nat → Nat × Nat × List Nat × List Nat
  | [] => (A, c, T, [])
  | [b0] => (A, c, T, [b0])
  | [b0, b1] => (A, c, T, [b0, b1])
  | [b0, b1, b2] => (A, c, T, [b0, b1, b2])
  | b0 :: b1 :: b2 :: b3 :: rest =>
    let s := roundMixer F A c T (packLE4 b0 b1 b2 b3)
    oneshotLoop F s.A s.c s.T rest

/-- Modelled from the spec: the hashing core of the one-shot entry
points of the absent rf_core.c — hash the message against the given,
already initialized table, returning the digest together with the
mutated table that a caller-owned external table keeps afterwards. -/
def rf256_hashT (F : RoundFns) (msg : List Nat) (T0 : List Nat) : Nat × List Nat :=
  let r := oneshotLoop F 0 0 T0 msg
  finishT F r.1 r.2.1 r.2.2.1 (packRem r.2.2.2) msg.length

/-- Modelled from the spec: rf_raminit of the absent rf_core.c —
deterministically fills the 2048-entry table from the 32-bit seed by a
seed-expanding counter generator with multiplicative diffusion; the
spec leaves the method free provided determinism and seed separation
hold, and seed 0 yields the fixed default table. -/
def rf_raminit (seed : Nat) : List Nat :=
  (List.range RAMBOX_SIZE).map
    (fun i => ((seed % 2 ^ 32 + 1) * 0x9E3779B97F4A7C15 + i * 0xA5A5B5C5D5E5F5A7 + i) % 2 ^ 64)

/-- Modelled from the spec: rf256_hash of rainforest.h — one-shot hash
through a freshly allocated private table initialized with seed 0. -/
def rf256_hash (F : RoundFns) (msg : List Nat) : Nat :=
  (rf256_hashT F msg (rf_raminit 0)).1

/-- Modelled from the spec: rf256_hash2 of rainforest.h — one-shot hash
through a freshly allocated private table initialized with the given
seed. -/
def rf256_hash2 (F : RoundFns) (msg : List Nat) (seed : Nat) : Nat :=
  (rf256_hashT F msg (rf_raminit seed)).1

/-- Modelled from the spec: the authoritative 5-argument hash entry
point invoked by the harness (rf_test.c calls rf256_hash with an
optional external table and an optional seed) — no table supplied means
an internally owned, freshly default-initialized table, and no seed
means seed 0; the digest and the resulting table state are returned. -/
def rf256_hash5 (F : RoundFns) (msg : List Nat) (table : Option (List Nat))
    (seed : Option Nat) : Nat × List Nat :=
  rf256_hashT F msg
    (match table with
      | some T => T
      | none => rf_raminit (seed.getD 0))

/-- The fixed 80-byte test pattern of rf_test.c (test_msg, lines 28-38). -/
def test_msg : List Nat :=
  [0x01, 0x02, 0x04, 0x08, 0x10, 0x20, 0x40, 0x80,
   0x01, 0x03, 0x05, 0x09, 0x11, 0x21, 0x41, 0x81,
   0x02, 0x02, 0x06, 0x0A, 0x12, 0x22, 0x42, 0x82,
   0x05, 0x06, 0x04, 0x0C, 0x14, 0x24, 0x44, 0x84,
   0x09, 0x0A, 0x0C, 0x08, 0x18, 0x28, 0x48, 0x88,
   0x11, 0x12, 0x14, 0x18, 0x10, 0x30, 0x50, 0x90,
   0x21, 0x22, 0x24, 0x28, 0x30, 0x20, 0x60, 0xA0,
   0x41, 0x42, 0x44, 0x48, 0x50, 0x60, 0x40, 0xC0,
   0x81, 0x82, 0x84, 0x88, 0x90, 0xA0, 0xC0, 0x80,
   0x18, 0x24, 0x42, 0x81, 0x99, 0x66, 0x55, 0xAA]

/-- The published 32-byte conformance constant of rf_test.c
(test_msg_out256, lines 41-45). -/
def test_msg_out256 : List Nat :=
  [0xd7, 0x76, 0xc9, 0xda, 0x11, 0x18, 0xe3, 0xb0,
   0x92, 0x7f, 0x36, 0x8e, 0x55, 0x73, 0x70, 0xe8,
   0xb9, 0xa6, 0xb9, 0x30, 0xf1, 0x09, 0xc5, 0xf7,
   0x29, 0x1c, 0x5c, 0x5c, 0x46, 0xf1, 0x5a, 0x94]

/-- The 32 little-endian bytes of a 256-bit digest, as the harness
stores the digest into its out buffer. -/
def digestBytes (d : Nat) : List Nat :=
  (List.range 32).map (fun i => d / 2 ^ (8 * i) % 256)

/-- One iteration of the MODE_CHECK loop of rf_test.c (lines 182-195):
XOR every message byte with the loop counter (with uint8 truncation),
hash the 80-byte message through the external table — the call
rf256_hash with the rambox and a null seed — then overwrite the first
32 message bytes with the digest. The state is the pair of the message
bytes and the external table. -/
def checkStep (F : RoundFns) (st : List Nat × List Nat) (k : Nat) :
    List Nat × List Nat :=
  let m := st.1.map (fun b => (b ^^^ k) % 256)
  let r := rf256_hash5 F m (some st.2) none
  (digestBytes r.1 ++ m.drop 32, r.2)

/-- The state of the MODE_CHECK harness of rf_test.c after n iterations:
the message starts as test_msg and the external table is filled by
rf_raminit once, before the loop (lines 172-180). -/
def checkState (F : RoundFns) (n : Nat) : List Nat × List Nat :=
  (List.range n).foldl (checkStep F) (test_msg, rf_raminit 0)

/-- The digest produced by the last iteration of the 256-round
conformance loop: the first 32 bytes of the final message. -/
def checkDigest (F : RoundFns) : List Nat :=
  (checkState F 256).1.take 32

/-- The conformance property of the fixture: after 256 iterations the
final digest equals the published constant test_msg_out256. -/
def conformance (F : RoundFns) : Prop :=
  checkDigest F = test_msg_out256

/-- A concrete instantiation of the functions the spec leaves free in
the Round Mixer, used to evaluate the parametric development on closed
inputs: arithmetic stand-ins for the nonlinear combination, the
write-back mixing function and the index derivation. -/
def rfF : RoundFns :=
  ⟨fun e a => a * 0x10001 + e * 0x9E3779B9 + 1,
   fun e a c => e * 3 + a + c + 0x5A5A5A5A,
   fun a c => a / 2 ^ 5 + c⟩

/-- A concrete 2048-entry table used to evaluate closed instances. -/
def demoTable : List Nat :=
  List.replicate RAMBOX_SIZE 0

/-- A concrete context over demoTable used to evaluate closed instances. -/
def demoCtx : rf256_ctx_t :=
  ⟨demoTable, 0, 0, 0, 0⟩

theorem mixLoop_eq_iterate (F : RoundFns) : ∀ (n : Nat) (s : MixState),
    mixLoop F n s = (mixIter F)^[n] s
  | 0, _ => rfl
  | n + 1, s => by
    rw [Function.iterate_succ_apply]
    exact mixLoop_eq_iterate F n (mixIter F s)

theorem mixTrace_length (F : RoundFns) : ∀ (n : Nat) (s : MixState),
    (mixTrace F n s).length = n
  | 0, _ => rfl
  | n + 1, s => by
    simp [mixTrace, mixTrace_length F n]

theorem mixIter_idx_lt (F : RoundFns) (s : MixState) :
    (mixIter F s).idx < RAMBOX_SIZE := by
  simp only [mixIter]
  exact Nat.mod_lt _ (by decide)

theorem mixTrace_bounded (F : RoundFns) : ∀ (n : Nat) (s : MixState),
    s.idx < RAMBOX_SIZE →
    (mixTrace F n s).all (fun i => decide (i < RAMBOX_SIZE)) = true
  | 0, _, _ => rfl
  | n + 1, s, h => by
    simp only [mixTrace, List.all_cons, Bool.and_eq_true, decide_eq_true_eq]
    exact ⟨h, mixTrace_bounded F n (mixIter F s) (mixIter_idx_lt F s)⟩

theorem mixLoop_T_length (F : RoundFns) : ∀ (n : Nat) (s : MixState),
    (mixLoop F n s).T.length = s.T.length
  | 0, _ => rfl
  | n + 1, s => by
    rw [show mixLoop F (n + 1) s = mixLoop F n (mixIter F s) from rfl,
      mixLoop_T_length F n (mixIter F s)]
    simp [mixIter]

theorem roundMixer_T_length (F : RoundFns) (A c : Nat) (T : List Nat) (unit : Nat) :
    (roundMixer F A c T unit).T.length = T.length :=
  mixLoop_T_length F RAMBOX_LOOPS _

theorem oneshotLoop_T_length (F : RoundFns) : ∀ (msg : List Nat) (A c : Nat) (T : List Nat),
    (oneshotLoop F A c T msg).2.2.1.length = T.length
  | [], _, _, _ => rfl
  | [_], _, _, _ => rfl
  | [_, _], _, _, _ => rfl
  | [_, _, _], _, _, _ => rfl
  | b0 :: b1 :: b2 :: b3 :: rest, A, c, T => by
    simp only [oneshotLoop]
    rw [oneshotLoop_T_length F rest]
    exact roundMixer_T_length F A c T (packLE4 b0 b1 b2 b3)

theorem finishT_T_length (F : RoundFns) (A c : Nat) (T : List Nat) (word len : Nat) :
    (finishT F A c T word len).2.length = T.length := by
  unfold finishT
  by_cases h : len % 4 = 0 <;> simp [h, roundMixer_T_length]

theorem hashT_T_length (F : RoundFns) (msg T0 : List Nat) :
    (rf256_hashT F msg T0).2.length = T0.length := by
  simp only [rf256_hashT]
  rw [finishT_T_length, oneshotLoop_T_length]

theorem update_T_length (F : RoundFns) : ∀ (msg : List Nat) (ctx : rf256_ctx_t),
    (rf256_update F ctx msg).rambox.length = ctx.rambox.length
  | [], _ => rfl
  | b :: rest, ctx => by
    rw [show rf256_update F ctx (b :: rest)
        = rf256_update F (rf256_update_byte F ctx b) rest from rfl,
      update_T_length F rest]
    unfold rf256_update_byte
    by_cases h : ctx.len % 4 = 3 <;> simp [h, roundMixer_T_length]

theorem foldl_update_flatten (F : RoundFns) : ∀ (chunks : List (List Nat)) (x : rf256_ctx_t),
    chunks.foldl (rf256_update F) x = rf256_update F x chunks.flatten
  | [], _ => rfl
  | ch :: rest, x => by
    rw [show (ch :: rest).flatten = ch ++ rest.flatten from rfl,
      show List.foldl (rf256_update F) x (ch :: rest)
        = List.foldl (rf256_update F) (rf256_update F x ch) rest from rfl,
      foldl_update_flatten F rest]
    show rf256_update F (rf256_update F x ch) rest.flatten
      = rf256_update F x (ch ++ rest.flatten)
    unfold rf256_update
    rw [List.foldl_append]

theorem update_oneshot (F : RoundFns) : ∀ (msg : List Nat) (A c : Nat) (T : List Nat) (n : Nat),
    n % 4 = 0 →
    rf256_update F ⟨T, A, c, 0, n⟩ msg =
      ⟨(oneshotLoop F A c T msg).2.2.1, (oneshotLoop F A c T msg).1,
       (oneshotLoop F A c T msg).2.1, packRem (oneshotLoop F A c T msg).2.2.2,
       n + msg.length⟩
  | [], A, c, T, n, h => by
    simp [rf256_update, oneshotLoop, packRem]
  | [b0], A, c, T, n, h => by
    simp [rf256_update, rf256_update_byte, oneshotLoop, packRem, h]
  | [b0, b1], A, c, T, n, h => by
    have h1 : (n + 1) % 4 = 1 := by omega
    simp [rf256_update, rf256_update_byte, oneshotLoop, packRem, h, h1]
  | [b0, b1, b2], A, c, T, n, h => by
    have h1 : (n + 1) % 4 = 1 := by omega
    have h2 : (n + 1 + 1) % 4 = 2 := by omega
    simp [rf256_update, rf256_update_byte, oneshotLoop, packRem, h, h1, h2]
  | b0 :: b1 :: b2 :: b3 :: rest, A, c, T, n, h => by
    have h1 : (n + 1) % 4 = 1 := by omega
    have h2 : (n + 1 + 1) % 4 = 2 := by omega
    have h3 : (n + 1 + 1 + 1) % 4 = 3 := by omega
    have h4 : (n + 4) % 4 = 0 := by omega
    have e1 : rf256_update_byte F ⟨T, A, c, 0, n⟩ b0
        = ⟨T, A, c, b0 % 256, n + 1⟩ := by
      simp [rf256_update_byte, h]
    have e2 : rf256_update_byte F ⟨T, A, c, b0 % 256, n + 1⟩ b1
        = ⟨T, A, c, b0 % 256 + b1 % 256 * 2 ^ 8, n + 1 + 1⟩ := by
      simp [rf256_update_byte, h1]
    have e3 : rf256_update_byte F ⟨T, A, c, b0 % 256 + b1 % 256 * 2 ^ 8, n + 1 + 1⟩ b2
        = ⟨T, A, c, b0 % 256 + b1 % 256 * 2 ^ 8 + b2 % 256 * 2 ^ 16, n + 1 + 1 + 1⟩ := by
      simp [rf256_update_byte, h2]
    have e4 : rf256_update_byte F
        ⟨T, A, c, b0 % 256 + b1 % 256 * 2 ^ 8 + b2 % 256 * 2 ^ 16, n + 1 + 1 + 1⟩ b3
        = ⟨(roundMixer F A c T (packLE4 b0 b1 b2 b3)).T,
           (roundMixer F A c T (packLE4 b0 b1 b2 b3)).A,
           (roundMixer F A c T (packLE4 b0 b1 b2 b3)).c, 0, n + 1 + 1 + 1 + 1⟩ := by
      simp [rf256_update_byte, h3, packLE4]
    have ih := update_oneshot F rest (roundMixer F A c T (packLE4 b0 b1 b2 b3)).A
      (roundMixer F A c T (packLE4 b0 b1 b2 b3)).c
      (roundMixer F A c T (packLE4 b0 b1 b2 b3)).T (n + 4) h4
    show rf256_update F
        (rf256_update_byte F (rf256_update_byte F (rf256_update_byte F
          (rf256_update_byte F ⟨T, A, c, 0, n⟩ b0) b1) b2) b3) rest = _
    rw [e1, e2, e3, e4, show n + 1 + 1 + 1 + 1 = n + 4 from by omega, ih]
    simp only [oneshotLoop, List.length_cons, rf256_ctx_t.mk.injEq]
    refine ⟨trivial, trivial, trivial, trivial, by omega⟩

/-- Claim C2: streaming equivalence — performing Init and then Update on
the chunks c1..cn of a partition, then Final, yields the same digest as
Init, one Update on the concatenated message, then Final, over the same
starting context (hence the same initialized table); indeed the whole
resulting context is equal, so the digest depends only on the
concatenated bytes and total length, never on the chunking. -/
theorem rf256_streaming_equivalence (F : RoundFns) (ctx : rf256_ctx_t)
    (chunks : List (List Nat)) :
    rf256_final F (chunks.foldl (rf256_update F) (rf256_init ctx)) =
      rf256_final F (rf256_update F (rf256_init ctx) chunks.flatten) ∧
    chunks.foldl (rf256_update F) (rf256_init ctx) =
      rf256_update F (rf256_init ctx) chunks.flatten :=
  ⟨by rw [foldl_update_flatten], foldl_update_flatten F chunks (rf256_init ctx)⟩

/-- Claim C3: for every 32-bit unit fed to the Round Mixer, the checksum
is first updated by CRC32, the first table index is the updated
checksum modulo 2048, and the loop consists of exactly RAMBOX_LOOPS = 4
serially dependent iterations of the read/combine/write-back/next-index
step mixIter — the mixer equals the four-fold iterate of mixIter, so
each iteration consumes the state the previous one produced — and every
accessed table index lies below RAMBOX_SIZE. -/
theorem roundMixer_structure (F : RoundFns) (A c : Nat) (T : List Nat) (unit : Nat) :
    RAMBOX_LOOPS = 4 ∧
    roundMixer F A c T unit =
      (mixIter F)^[RAMBOX_LOOPS] ⟨A, rf_crc32 c unit, T, rf_crc32 c unit % RAMBOX_SIZE⟩ ∧
    (roundMixerTrace F A c T unit).length = RAMBOX_LOOPS ∧
    (roundMixerTrace F A c T unit).all (fun i => decide (i < RAMBOX_SIZE)) = true :=
  ⟨rfl, mixLoop_eq_iterate F RAMBOX_LOOPS _, mixTrace_length F RAMBOX_LOOPS _,
   mixTrace_bounded F RAMBOX_LOOPS _ (Nat.mod_lt _ (by decide))⟩

/-- Claim C4: the one-shot rf256_hash returns exactly the digest of the
incremental sequence Init, Update with the whole message, Final, on a
context whose private table is freshly initialized with seed 0. -/
theorem rf256_hash_refines_incremental (F : RoundFns) (msg : List Nat)
    (ctx : rf256_ctx_t) (h : ctx.rambox = rf_raminit 0) :
    rf256_hash F msg = rf256_final F (rf256_update F (rf256_init ctx) msg) := by
  have hinit : rf256_init ctx = ⟨rf_raminit 0, 0, 0, 0, 0⟩ := by
    simp [rf256_init, h]
  rw [hinit, update_oneshot F msg 0 0 (rf_raminit 0) 0 (by decide)]
  simp only [rf256_final, rf256_hash, rf256_hashT, Nat.zero_add]

/-- Witness for claim C4 at a concrete context and message. -/
theorem rf256_hash_refines_incremental_wit :
    (⟨rf_raminit 0, 1, 2, 3, 4⟩ : rf256_ctx_t).rambox = rf_raminit 0 ∧
    rf256_hash rfF [5, 6, 7, 8, 9] =
      rf256_final rfF
        (rf256_update rfF (rf256_init ⟨rf_raminit 0, 1, 2, 3, 4⟩) [5, 6, 7, 8, 9]) :=
  ⟨by simp, rf256_hash_refines_incremental rfF [5, 6, 7, 8, 9] ⟨rf_raminit 0, 1, 2, 3, 4⟩
    (by simp)⟩

/-- Claim C5: the 5-argument entry point with no external table and no
seed hashes through an internally owned, freshly default-initialized
table with seed 0 — it agrees with the one-shot rf256_hash — and, for
every message and optional table argument, absence of a seed is
equivalent to seed 0. -/
theorem rf256_hash5_defaults (F : RoundFns) (msg : List Nat) (t : Option (List Nat)) :
    rf256_hash5 F msg none none = rf256_hashT F msg (rf_raminit 0) ∧
    (rf256_hash5 F msg none none).1 = rf256_hash F msg ∧
    rf256_hash5 F msg t none = rf256_hash5 F msg t (some 0) := by
  refine ⟨rfl, rfl, ?_⟩
  cases t <;> rfl

/-- Claim C7: hashing never resizes the table — with a 2048-entry table
the one-shot hash, any Update and the finalization all leave exactly
RAMBOX_SIZE = 2048 entries — and every table index the Round Mixer
reads or writes (these are the only table accesses of the engine) lies
in the interval from 0 to 2048 exclusive. -/
theorem rf256_rambox_containment (F : RoundFns) (msg : List Nat) (T0 : List Nat)
    (ctx : rf256_ctx_t) (A c w : Nat) (h : T0.length = RAMBOX_SIZE)
    (hc : ctx.rambox.length = RAMBOX_SIZE) :
    (rf256_hashT F msg T0).2.length = RAMBOX_SIZE ∧
    (rf256_update F ctx msg).rambox.length = RAMBOX_SIZE ∧
    (finishT F ctx.hash ctx.crc ctx.rambox ctx.word ctx.len).2.length = RAMBOX_SIZE ∧
    (roundMixerTrace F A c T0 w).length = RAMBOX_LOOPS ∧
    (roundMixerTrace F A c T0 w).all (fun i => decide (i < RAMBOX_SIZE)) = true := by
  refine ⟨?_, ?_, ?_, ?_, ?_⟩
  · rw [hashT_T_length]; exact h
  · rw [update_T_length]; exact hc
  · rw [finishT_T_length]; exact hc
  · exact mixTrace_length F RAMBOX_LOOPS _
  · exact mixTrace_bounded F RAMBOX_LOOPS _ (Nat.mod_lt _ (by decide))

/-- Witness for claim C7 at a concrete table, context and message. -/
theorem rf256_rambox_containment_wit :
    demoTable.length = RAMBOX_SIZE ∧ demoCtx.rambox.length = RAMBOX_SIZE ∧
    ((rf256_hashT rfF [1, 2, 3, 4, 5] demoTable).2.length = RAMBOX_SIZE ∧
     (rf256_update rfF demoCtx [1, 2, 3, 4, 5]).rambox.length = RAMBOX_SIZE ∧
     (finishT rfF demoCtx.hash demoCtx.crc demoCtx.rambox demoCtx.word
        demoCtx.len).2.length = RAMBOX_SIZE ∧
     (roundMixerTrace rfF 6 7 demoTable 8).length = RAMBOX_LOOPS ∧
     (roundMixerTrace rfF 6 7 demoTable 8).all
        (fun i => decide (i < RAMBOX_SIZE)) = true) :=
  ⟨by simp [demoTable], by simp [demoCtx, demoTable],
   rf256_rambox_containment rfF [1, 2, 3, 4, 5] demoTable demoCtx 6 7 8
     (by simp [demoTable]) (by simp [demoCtx, demoTable])⟩

/-- Claim C8: Init resets the accumulator to all-zero, the checksum to
zero, the pending word to zero (hence the pending byte count, the
length modulo 4, to zero) and the total-length counter to zero, and
leaves every entry of the rambox associated with the context
unchanged. -/
theorem rf256_init_frame (ctx : rf256_ctx_t) :
    (rf256_init ctx).hash = 0 ∧ (rf256_init ctx).crc = 0 ∧
    (rf256_init ctx).word = 0 ∧ (rf256_init ctx).len = 0 ∧
    (rf256_init ctx).len % 4 = 0 ∧ (rf256_init ctx).rambox = ctx.rambox :=
  ⟨rfl, rfl, rfl, rfl, rfl, rfl⟩

/-- Claim C9: two-run determinism — hashing the same message through two
tables freshly initialized from the same seed yields bit-identical
digests (and identical final tables), because table initialization is a
function of the seed alone. -/
theorem rf256_hash_deterministic (F : RoundFns) (msg : List Nat) (s : Nat)
    (T1 T2 : List Nat) (h1 : T1 = rf_raminit s) (h2 : T2 = rf_raminit s) :
    rf256_hashT F msg T1 = rf256_hashT F msg T2 := by
  rw [h1, h2]

/-- Witness for claim C9 at a concrete seed and message. -/
theorem rf256_hash_deterministic_wit :
    rf_raminit 5 = rf_raminit 5 ∧
    rf256_hashT rfF [1, 2] (rf_raminit 5) = rf256_hashT rfF [1, 2] (rf_raminit 5) :=
  ⟨rfl, rf256_hash_deterministic rfF [1, 2] 5 (rf_raminit 5) (rf_raminit 5) rfl rfl⟩

/-- Claim C10: in the MODE_CHECK harness the external table is filled by
rf_raminit exactly once, in the initial state before the loop, and each
iteration receives as input — message and table alike — exactly the
full output state of the previous iteration: the table mutated by the
hash call of iteration k is the table fed to the hash call of
iteration k + 1. -/
theorem check_table_carryover (F : RoundFns) (n : Nat) :
    checkState F (n + 1) = checkStep F (checkState F n) n ∧
    checkState F 0 = (test_msg, rf_raminit 0) := by
  constructor
  · simp [checkState, List.range_succ]
  · rfl
